import Mathlib

/-!
Verification development for the HTMLaPDF conversion-job pipeline.

The definitions below are shallow embeddings of the TypeScript source:
pure functions become Lean functions, the in-memory job store becomes an
explicit record that is threaded through the operations, timestamps
(`new Date()`) become `Nat` parameters supplied by the caller, and
fallible code returns `Except`/`Option`.  Each definition's doc comment
cites the source file and lines it was translated from.
-/

/-- shared schema (conversion_jobs table): one conversion job record.
`createdAt`/`completedAt` are modelled as abstract `Nat` timestamps. -/
structure ConversionJob where
  id : Nat
  filename : String
  originalHtml : String
  status : String
  pdfPath : Option String
  config : String
  createdAt : Nat
  completedAt : Option Nat
  error : Option String
deriving DecidableEq

/-- server/storage.ts lines 10-17: `MemStorage` holds a `Map<number, ConversionJob>`
plus a `currentId` counter.  The map is modelled as the list of its values in
insertion order (JS `Map` iteration order); `Map.set` on an existing key keeps
the entry's position, which the update operation below mirrors by replacing
in place. -/
structure MemStorage where
  jobs : List ConversionJob
  currentId : Nat
deriving DecidableEq

/-- `Map.get(id)` on the jobs map: first (and, for stores built by
`createConversionJob`, only) entry with the given id. -/
def lookupJob (st : MemStorage) (id : Nat) : Option ConversionJob :=
  st.jobs.find? (fun j => j.id == id)

/-- server/storage.ts lines 19-32: `createConversionJob` assigns `currentId++`,
fills the initial fields and inserts the job. -/
def createConversionJob (st : MemStorage) (filename originalHtml config : String)
    (now : Nat) : MemStorage × ConversionJob :=
  let job : ConversionJob :=
    { id := st.currentId, filename := filename, originalHtml := originalHtml,
      status := ("pending"), pdfPath := none, config := config,
      createdAt := now, completedAt := none, error := none }
  ({ jobs := st.jobs ++ [job], currentId := st.currentId + 1 }, job)

/-- server/storage.ts lines 50-51: the JS expressions `pdfPath || job.pdfPath`
and `error || job.error`.  A missing (`undefined`) or empty-string argument is
falsy and keeps the stored value; any non-empty string replaces it. -/
def falsyOr (arg old : Option String) : Option String :=
  match arg with
  | none => old
  | some s => if s = ("") then old else some s

/-- server/storage.ts lines 47-53: the updated record built by
`updateConversionJobStatus` (the object-spread literal).  `now` stands for
the `new Date()` taken when the status is terminal. -/
def applyTransition (job : ConversionJob) (status : String)
    (pdfPath error : Option String) (now : Nat) : ConversionJob :=
  { job with
    status := status,
    pdfPath := falsyOr pdfPath job.pdfPath,
    error := falsyOr error job.error,
    completedAt :=
      if status = ("completed") || status = ("failed") then some now
      else job.completedAt }

/-- server/storage.ts lines 38-57: `updateConversionJobStatus`.  Returns the
store after `Map.set` together with the value the method returns
(`undefined` when the job does not exist). -/
def updateConversionJobStatus (st : MemStorage) (id : Nat) (status : String)
    (pdfPath error : Option String) (now : Nat) :
    MemStorage × Option ConversionJob :=
  match lookupJob st id with
  | none => (st, none)
  | some job =>
    let updated := applyTransition job status pdfPath error now
    ({ st with jobs := st.jobs.map (fun j => if j.id == id then updated else j) },
      some updated)

/-- Stable insertion preserving descending `createdAt` order: an element is
placed before `y` exactly when it is at least as recent, so an earlier-listed
element stays before later-listed elements with the same `createdAt`. -/
def insertByCreatedAtDesc (x : ConversionJob) : List ConversionJob → List ConversionJob
  | [] => [x]
  | y :: ys =>
    if y.createdAt ≤ x.createdAt then x :: y :: ys
    else y :: insertByCreatedAtDesc x ys

/-- Stable sort by `createdAt` descending — the result of the (stable) JS
`Array.prototype.sort` with comparator `(a, b) => b.createdAt - a.createdAt`. -/
def sortByCreatedAtDesc : List ConversionJob → List ConversionJob
  | [] => []
  | x :: xs => insertByCreatedAtDesc x (sortByCreatedAtDesc xs)

/-- server/storage.ts lines 59-63: `getRecentJobs` sorts the map's values by
`createdAt` descending and takes the first `limit`. -/
def getRecentJobs (st : MemStorage) (limit : Nat) : List ConversionJob :=
  (sortByCreatedAtDesc st.jobs).take limit

/-- server/services/job-timeout-manager.ts line 20: the user-facing message the
timeout callback passes to the store. -/
def timedOutMessage : String :=
  "Job timed out - processing took too long. Please try with a smaller file or contact support."

/-- server/services/job-timeout-manager.ts lines 13-31: the body of the
`setTimeout` callback armed by `startJobTimeout`.  It calls
`updateConversionJobStatus(jobId, "failed", <message>)` — the message is the
third positional argument, which is the `pdfPath` parameter; no `error`
argument is passed.  (`cleanupJobResources` only touches the filesystem and
is outside the store model.) -/
def fireJobTimeout (st : MemStorage) (jobId now : Nat) : MemStorage :=
  (updateConversionJobStatus st jobId ("failed") (some timedOutMessage) none now).1

/-- server/services/job-timeout-manager.ts line 92: the message used by the
startup sweep. -/
def interruptedMessage : String := "Job was interrupted - please try again"

/-- server/services/job-timeout-manager.ts lines 82-83: the jobs the startup
sweep selects — only `status === 'processing'`, and only among the 10 most
recent jobs. -/
def processingRecent (st : MemStorage) : List ConversionJob :=
  (getRecentJobs st 10).filter (fun j => j.status == ("processing"))

/-- server/services/job-timeout-manager.ts lines 78-101: `cleanupHangingJobs`.
For each selected job it calls
`updateConversionJobStatus(job.id, "failed", <interrupted message>)` — again
the message rides in the `pdfPath` slot and `error` is omitted.  `now` stands
for the `new Date()` of the transitions. -/
def cleanupHangingJobs (st : MemStorage) (now : Nat) : MemStorage :=
  (processingRecent st).foldl
    (fun s j =>
      (updateConversionJobStatus s j.id ("failed") (some interruptedMessage) none now).1)
    st

/-- server/services/pdf-generator.ts line 1330: the message thrown when the
browser-launch fallback loop exhausts all attempts. -/
def allLaunchFailedMessage : String := "All browser launch attempts failed"

/-- server/services/pdf-generator.ts lines 1296-1332: the fallback loop.  Each
entry of `fallbackAttempts` either yields a browser handle or throws; the loop
tries them in order, `break`s on the first success, logs (and otherwise
discards) each failure, and throws the constant message when none succeeded.
The attempts' outcomes are modelled as a list of `Except` values. -/
def launchWithFallback {β : Type} : List (Except String β) → Except String β
  | [] => Except.error allLaunchFailedMessage
  | Except.ok b :: _ => Except.ok b
  | Except.error _ :: rest => launchWithFallback rest

/-- server/services/html-to-pdf-fallback.ts lines 97-129: `generateSimplePdf`
wraps its body in try/catch; any internal failure is logged and rethrown as
the constant message `'All PDF generation methods failed'`, discarding the
caught error.  The body's outcome is modelled as an `Except` argument. -/
def generateSimplePdfErrorPath (internal : Except String String) : Except String String :=
  match internal with
  | Except.ok p => Except.ok p
  | Except.error _ => Except.error ("All PDF generation methods failed")

/-- server/services/pdf-generator.ts lines 1386-1395 (third variant): once
`page.pdf` returns, the job is immediately marked `completed` (no `pdfPath`
or `error` argument is passed) and the output path is returned.  The bytes
`page.pdf` wrote are taken as a parameter to make explicit that the code
never inspects them. -/
def finishStrategy1 (st : MemStorage) (jobId : Nat) (artifactBytes : List Nat)
    (outputPath : String) (now : Nat) : MemStorage × String :=
  ((updateConversionJobStatus st jobId ("completed") none none now).1, outputPath)

/-- Modelled from the spec: the artifact-validity check that §4.3 requires of
strategy 1 — the artifact must be non-empty and begin with the PDF binary
signature `%PDF` (bytes 37, 80, 68, 70).  No such check exists anywhere in
the source; this definition only serves to state the claim. -/
def validPdfBytes (bytes : List Nat) : Bool :=
  decide (bytes ≠ []) && decide (bytes.take 4 = [37, 80, 68, 70])

/-- server/services/pdf-generator.ts lines 65-85 (first variant): the
column-count classification added to each table whose first `tr` exists;
`columnCount` is `headerRow.children.length`. -/
def tableSizeClass (columnCount : Nat) : String :=
  if columnCount ≤ 7 then ("small-table")
  else if columnCount ≤ 14 then ("medium-table")
  else ("large-table")

/-- server/services/pdf-generator.ts lines 176-253 (first variant of
`generateCustomCSS`): the table-level `font-size` in px for each size class
(`small-table` 11px, `medium-table` 9px, every other table — including
`large-table` — the 7px default). -/
def classFontSizePx (cls : String) : Nat :=
  if cls = ("small-table") then 11
  else if cls = ("medium-table") then 9
  else 7

/-- Font size a table gets from the column-count classification (first
variant): the class CSS applied to the class computed from the column
count. -/
def tableFontSizePx (columnCount : Nat) : Nat :=
  classFontSizePx (tableSizeClass columnCount)

/-- server/services/pdf-generator.ts lines 268-277 (first variant): inside a
`large-table`, every `th`/`td` gets `width: calc(100% / 20)`, and the later
first-child rule overrides column 0 with `width: calc(100% / 6)`. -/
def largeColWidthPctV1 (i : Nat) : ℚ :=
  if i = 0 then 100 / 6 else 100 / 20

/-- server/services/pdf-generator.ts lines 906-921 (second variant): inside a
`large-table`, the first column gets `width: 15%` and every other column
`width: calc(85% / 19)`. -/
def largeColWidthPct (i : Nat) : ℚ :=
  if i = 0 then 15 else 85 / 19

/-- Aggregate width (in % of the page) claimed by the `n` columns of one
table row under the per-column width rule `w`. -/
def tableRowClaimPct (w : Nat → ℚ) (n : Nat) : ℚ :=
  ((List.range n).map w).sum

/-- ASCII lower-casing, as the `i` regex flag folds case for the ASCII
patterns involved (Unicode case folding is irrelevant to these patterns). -/
def lowerChar (c : Char) : Char :=
  if 'A' ≤ c && c ≤ 'Z' then Char.ofNat (c.toNat + 32) else c

/-- JS regex `\s` on the ASCII range: space, tab, newline, carriage return,
vertical tab, form feed. -/
def isJsWS (c : Char) : Bool :=
  c == ' ' || c == '\t' || c == '\n' || c == '\r' || c == '\x0b' || c == '\x0c'

/-- Match a literal (case-sensitive); returns the remainder on success. -/
def stripLit : List Char → List Char → Option (List Char)
  | [], s => some s
  | _ :: _, [] => none
  | p :: ps, c :: cs => if c = p then stripLit ps cs else none

/-- Match a literal up to ASCII case; returns the remainder on success. -/
def stripLitCI : List Char → List Char → Option (List Char)
  | [], s => some s
  | _ :: _, [] => none
  | p :: ps, c :: cs => if lowerChar c = lowerChar p then stripLitCI ps cs else none

/-- Greedy `\s*`: count of leading whitespace and the remainder.  Greedy
matching is exact here because every following pattern character is
non-whitespace. -/
def spanWS : List Char → Nat × List Char
  | [] => (0, [])
  | c :: cs =>
    if isJsWS c then
      let r := spanWS cs
      (r.1 + 1, r.2)
    else (0, c :: cs)

/-- Greedy `[^x]*x` (x ∉ `[^x]`): number of characters before the first `stop`
and the remainder after it; `none` when `stop` does not occur. -/
def untilChar (stop : Char) : List Char → Option (Nat × List Char)
  | [] => none
  | c :: cs =>
    if c = stop then some (0, cs)
    else
      match untilChar stop cs with
      | none => none
      | some (k, r) => some (k + 1, r)

/-- html-validation.ts line 38, `/document\.write\s*\([^)]*\)/g`: total length
of the match at the head of the input, if any. -/
def matchDocumentWrite (s : List Char) : Option Nat :=
  match stripLit (['d','o','c','u','m','e','n','t','.','w','r','i','t','e']) s with
  | none => none
  | some r1 =>
    let ws := spanWS r1
    match ws.2 with
    | '(' :: r2 =>
      match untilChar (')') r2 with
      | none => none
      | some (k, _) => some (14 + ws.1 + 1 + k + 1)
    | _ => none

/-- html-validation.ts line 39, `/document\.open\s*\([^)]*\)/g`. -/
def matchDocumentOpen (s : List Char) : Option Nat :=
  match stripLit (['d','o','c','u','m','e','n','t','.','o','p','e','n']) s with
  | none => none
  | some r1 =>
    let ws := spanWS r1
    match ws.2 with
    | '(' :: r2 =>
      match untilChar (')') r2 with
      | none => none
      | some (k, _) => some (13 + ws.1 + 1 + k + 1)
    | _ => none

/-- html-validation.ts line 40, `/window\.location\s*=/g`. -/
def matchWindowLocation (s : List Char) : Option Nat :=
  match stripLit (['w','i','n','d','o','w','.','l','o','c','a','t','i','o','n']) s with
  | none => none
  | some r1 =>
    let ws := spanWS r1
    match ws.2 with
    | '=' :: _ => some (15 + ws.1 + 1)
    | _ => none

/-- html-validation.ts line 42, `/position:\s*fixed/gi`. -/
def matchPositionFixed (s : List Char) : Option Nat :=
  match stripLitCI (['p','o','s','i','t','i','o','n',':']) s with
  | none => none
  | some r1 =>
    let ws := spanWS r1
    match stripLitCI (['f','i','x','e','d']) ws.2 with
    | none => none
    | some _ => some (9 + ws.1 + 5)

/-- html-validation.ts line 43, `/position:\s*sticky/gi`. -/
def matchPositionSticky (s : List Char) : Option Nat :=
  match stripLitCI (['p','o','s','i','t','i','o','n',':']) s with
  | none => none
  | some r1 =>
    let ws := spanWS r1
    match stripLitCI (['s','t','i','c','k','y']) ws.2 with
    | none => none
    | some _ => some (9 + ws.1 + 6)

/-- html-validation.ts line 45, `/@media[^{\x7d]*\x7b[^\x7d]*\x7d/g` (the `@media`
block up to the first closing brace). -/
def matchMedia (s : List Char) : Option Nat :=
  match stripLit (['@','m','e','d','i','a']) s with
  | none => none
  | some r1 =>
    match untilChar ('{') r1 with
    | none => none
    | some (a, r2) =>
      match untilChar ('}') r2 with
      | none => none
      | some (b, _) => some (6 + a + 1 + b + 1)

/-- html-validation.ts line 46, `/animation:\s*[^;]+;/gi`.  Because `\s ⊆ [^;]`,
the fragment `\s*[^;]+` matches exactly the (non-empty) run of non-semicolon
characters before the first `;`. -/
def matchAnimationDecl (s : List Char) : Option Nat :=
  match stripLitCI (['a','n','i','m','a','t','i','o','n',':']) s with
  | none => none
  | some r1 =>
    match untilChar (';') r1 with
    | none => none
    | some (k, _) => if k = 0 then none else some (10 + k + 1)

/-- html-validation.ts line 48, `/\s+/g`: a maximal non-empty whitespace run. -/
def matchWSRun (s : List Char) : Option Nat :=
  let r := spanWS s
  if r.1 = 0 then none else some r.1

/-- One global `String.prototype.replace` pass: scan left to right, on a match
emit the replacement and continue after the matched text (replacements are
not rescanned), otherwise copy the character.  `skip` counts characters of
the current match still to be consumed; every matcher above consumes at
least one character, so the scan is structural in the input. -/
def replaceGo (m : List Char → Option Nat) (repl : List Char) :
    Nat → List Char → List Char
  | _, [] => []
  | skip + 1, _ :: rest => replaceGo m repl skip rest
  | 0, c :: rest =>
    match m (c :: rest) with
    | some k => repl ++ replaceGo m repl (k - 1) rest
    | none => c :: replaceGo m repl 0 rest

/-- `input.replace(regex-for-m, repl)` with the `g` flag. -/
def replaceAllPat (m : List Char → Option Nat) (repl : List Char)
    (s : List Char) : List Char :=
  replaceGo m repl 0 s

/-- html-validation.ts line 40 replacement text. -/
def winLocRepl : List Char := ['/','/',' ','w','i','n','d','o','w','.','l','o','c','a','t','i','o','n','=']

/-- html-validation.ts lines 42-43 replacement text. -/
def staticRepl : List Char := ['p','o','s','i','t','i','o','n',':',' ','s','t','a','t','i','c']

/-- `String.prototype.trim`: strip whitespace from both ends. -/
def trimChars (s : List Char) : List Char :=
  ((s.dropWhile isJsWS).reverse.dropWhile isJsWS).reverse

/-- html-validation.ts lines 35-49: `sanitizeHtml`, the chained replacements in
source order followed by whitespace collapsing and `trim()`. -/
def sanitizeChars (s : List Char) : List Char :=
  trimChars
    (replaceAllPat matchWSRun ([' '])
      (replaceAllPat matchAnimationDecl []
        (replaceAllPat matchMedia []
          (replaceAllPat matchPositionSticky staticRepl
            (replaceAllPat matchPositionFixed staticRepl
              (replaceAllPat matchWindowLocation winLocRepl
                (replaceAllPat matchDocumentOpen []
                  (replaceAllPat matchDocumentWrite [] s))))))))

/-- `sanitizeHtml` on Lean strings. -/
def sanitizeHtml (s : String) : String :=
  String.mk (sanitizeChars s.data)

/-- Modelled from the spec: the byte threshold (§4.1, "e.g., 600KB") above
which a document counts as large for the size-optimization/idempotence
property; no threshold constant exists in the source. -/
def sizeOptimizationThreshold : Nat := 600000

/-- `n` copies of a block of characters, used to build large documents. -/
def repBlock : Nat → List Char → List Char
  | 0, _ => []
  | n + 1, b => b ++ repBlock n b

/-- A 26-character block whose `animation:` declaration overlaps a split
second occurrence: removing the inner declaration concatenates the
surrounding text into a fresh `animation: z;` declaration. -/
def animBlock : List Char :=
  ['a','n','i','m','a','t','i','o','a','n','i','m','a','t','i','o','n',':',' ','y',';','n',':',' ','z',';']

/-- What one `animBlock` becomes after the animation-removal pass. -/
def smallBlock : List Char :=
  ['a','n','i','m','a','t','i','o','n',':',' ','z',';']

/-- A document above the size-optimization threshold: 24000 `animBlock`s,
624000 characters. -/
def largeDoc : List Char := repBlock 24000 animBlock

/-- Does `pat` occur at the head of `s`? -/
def headMatches : List Char → List Char → Bool
  | [], _ => true
  | _ :: _, [] => false
  | p :: ps, c :: cs => p == c && headMatches ps cs

/-- Does `pat` occur anywhere in `s`? -/
def containsSub (pat : List Char) : List Char → Bool
  | [] => headMatches pat []
  | c :: cs => headMatches pat (c :: cs) || containsSub pat cs

/-- Does the matcher `m` fire at any position of `s`? -/
def anySuffixMatch (m : List Char → Option Nat) : List Char → Bool
  | [] => (m []).isSome
  | c :: cs => (m (c :: cs)).isSome || anySuffixMatch m cs

/-- A fixed-positioning declaration (`position:` + spacing + `fixed`, any
case) occurs somewhere in the string: the very pattern line 42 of
html-validation.ts is meant to eliminate. -/
def hasFixedDecl (s : String) : Bool :=
  anySuffixMatch matchPositionFixed s.data

/-- A `document.write(...)` call occurs somewhere in the string — the pattern
line 38 of html-validation.ts is meant to eliminate. -/
def hasDocumentWriteCall (s : String) : Bool :=
  anySuffixMatch matchDocumentWrite s.data

/-- Did this attempt throw?  (`Except.error` = the thrown value.) -/
def isErr {β : Type} : Except String β → Bool
  | Except.error _ => true
  | Except.ok _ => false

/-- Test fixture: a job record with the given id, creation time and status,
all other fields fixed. -/
def mkJob (id createdAt : Nat) (status : String) : ConversionJob :=
  { id := id, filename := ("report.html"), originalHtml := ("<p>x</p>"),
    status := status, pdfPath := none, config := ("default"),
    createdAt := createdAt, completedAt := none, error := none }

/-- Test fixture: a store holding the given jobs. -/
def mkStore (l : List ConversionJob) : MemStorage := ⟨l, 100⟩

/-! ## Storage lemmas -/

theorem applyTransition_id (j : ConversionJob) (s : String) (p e : Option String)
    (t : Nat) : (applyTransition j s p e t).id = j.id := rfl

theorem find_map_replace (l : List ConversionJob) (id : Nat) (j u : ConversionJob)
    (hu : (u.id == id) = true)
    (h : l.find? (fun x => x.id == id) = some j) :
    (l.map (fun x => if x.id == id then u else x)).find? (fun x => x.id == id)
      = some u := by
  induction l with
  | nil => simp at h
  | cons a t ih =>
    rw [List.map_cons]
    by_cases ha : (a.id == id) = true
    · rw [if_pos ha]
      simp only [List.find?, hu]
    · have ha' : (a.id == id) = false := by simpa using ha
      simp only [List.find?, ha'] at h
      rw [if_neg (by simp [ha'])]
      simp only [List.find?, ha']
      exact ih h

theorem find_map_replace_ne (l : List ConversionJob) (id k : Nat) (u : ConversionJob)
    (hu : (u.id == id) = true) (hk : k ≠ id) :
    (l.map (fun x => if x.id == id then u else x)).find? (fun x => x.id == k)
      = l.find? (fun x => x.id == k) := by
  induction l with
  | nil => simp
  | cons a t ih =>
    rw [List.map_cons]
    by_cases ha : (a.id == id) = true
    · have haid : a.id = id := by simpa using ha
      have huid : u.id = id := by simpa using hu
      have h1 : (u.id == k) = false := by simp [huid]; omega
      have h2 : (a.id == k) = false := by simp [haid]; omega
      rw [if_pos ha]
      simp only [List.find?, h1, h2]
      exact ih
    · have ha' : (a.id == id) = false := by simpa using ha
      rw [if_neg (by simp [ha'])]
      by_cases hak : (a.id == k) = true
      · simp only [List.find?, hak]
      · have hak' : (a.id == k) = false := by simpa using hak
        simp only [List.find?, hak']
        exact ih

theorem lookup_update_self (st : MemStorage) (id : Nat) (j : ConversionJob)
    (s : String) (p e : Option String) (t : Nat)
    (hj : lookupJob st id = some j) :
    lookupJob (updateConversionJobStatus st id s p e t).1 id
      = some (applyTransition j s p e t) := by
  have hj' : st.jobs.find? (fun x => x.id == id) = some j := hj
  have hjid := List.find?_some hj'
  have huid : ((applyTransition j s p e t).id == id) = true := by
    simpa [applyTransition_id] using hjid
  unfold updateConversionJobStatus
  rw [show lookupJob st id = some j from hj]
  simpa [lookupJob] using find_map_replace st.jobs id j _ huid hj'

theorem lookup_update_ne (st : MemStorage) (id k : Nat)
    (s : String) (p e : Option String) (t : Nat) (hk : k ≠ id) :
    lookupJob (updateConversionJobStatus st id s p e t).1 k = lookupJob st k := by
  unfold updateConversionJobStatus
  cases hj : lookupJob st id with
  | none => rfl
  | some j =>
    have hj' : st.jobs.find? (fun x => x.id == id) = some j := hj
    have hjid := List.find?_some hj'
    have huid : ((applyTransition j s p e t).id == id) = true := by
      simpa [applyTransition_id] using hjid
    simpa [lookupJob] using find_map_replace_ne st.jobs id k _ huid hk

/-! ## C1: terminal-status transitions -/

/-- C1 (counterexample): a job whose first transition reached the terminal
status `completed` (with its artifact path and completion time) is then hit
by a `failed` transition; `updateConversionJobStatus` overwrites the terminal
status and the completion timestamp instead of being a no-op, so the second
terminal transition wins, contradicting the claim. -/
theorem terminal_status_overwritten :
    ((lookupJob
        ((updateConversionJobStatus
            ((updateConversionJobStatus (mkStore [mkJob 1 0 ("pending")])
                1 ("completed") (some ("a.pdf")) none 5).1)
            1 ("failed") none (some ("boom")) 6).1)
        1).map (fun j => (j.status, j.completedAt)))
      = some (("failed"), some 6) := by decide

/-- C1 (amended): `updateConversionJobStatus` has no terminal-state guard and
is last-writer-wins: after two terminal transitions on the same job, the job
carries the second transition's status and completion timestamp; the first
terminal status is overwritten, not protected. -/
theorem transition_last_writer_wins (st : MemStorage) (id : Nat) (j : ConversionJob)
    (s1 s2 : String) (p1 p2 e1 e2 : Option String) (t1 t2 : Nat)
    (hj : lookupJob st id = some j)
    (h1 : s1 = ("completed") ∨ s1 = ("failed"))
    (h2 : s2 = ("completed") ∨ s2 = ("failed")) :
    ∃ u, lookupJob
        ((updateConversionJobStatus
            ((updateConversionJobStatus st id s1 p1 e1 t1).1)
            id s2 p2 e2 t2).1) id = some u
      ∧ u.status = s2 ∧ u.completedAt = some t2 := by
  have ha := lookup_update_self st id j s1 p1 e1 t1 hj
  have hb := lookup_update_self _ id _ s2 p2 e2 t2 ha
  refine ⟨_, hb, rfl, ?_⟩
  rcases h2 with h | h <;> simp [applyTransition, h]

/-- Witness for the amended C1 theorem at a concrete store: a `completed`
transition followed by a `failed` transition leaves the job `failed` with the
second completion time. -/
theorem transition_last_writer_wins_witness :
    ∃ u, lookupJob
        ((updateConversionJobStatus
            ((updateConversionJobStatus (mkStore [mkJob 1 0 ("pending")])
                1 ("completed") (some ("a.pdf")) none 5).1)
            1 ("failed") none (some ("boom")) 6).1) 1 = some u
      ∧ u.status = ("failed") ∧ u.completedAt = some 6 :=
  transition_last_writer_wins (mkStore [mkJob 1 0 ("pending")]) 1
    (mkJob 1 0 ("pending")) ("completed") ("failed") (some ("a.pdf")) none none
    (some ("boom")) 5 6 (by decide) (Or.inl rfl) (Or.inr rfl)

/-! ## C2: the timeout path -/

/-- C2 (code evaluated at the failing input): the timeout callback passes its
user-facing message as the third positional argument of
`updateConversionJobStatus`, which is the `pdfPath` parameter.  For a job that
was `processing` with no artifact and no error, firing the timeout leaves the
job `failed` with `pdfPath` set to the timeout message and `error` still
`null` — the exact opposite of the claimed field assignment. -/
theorem timeout_message_lands_in_pdfPath :
    (lookupJob (fireJobTimeout (mkStore [mkJob 1 0 ("processing")]) 1 7) 1).map
        (fun j => (j.status, j.pdfPath, j.error))
      = some (("failed"), some timedOutMessage, none) := by decide

/-! ## C4: strategy-1 success path -/

/-- C4 (counterexample): a zero-byte artifact is invalid by the spec's
signature/non-emptiness check, yet the strategy-1 completion path still marks
the job `completed` — the strategy is treated as successful, not failed. -/
theorem zero_byte_artifact_reported_completed :
    validPdfBytes [] = false
    ∧ ((lookupJob
          (finishStrategy1 (mkStore [mkJob 1 0 ("processing")]) 1 [] ("out.pdf") 9).1
          1).map (fun j => j.status))
        = some ("completed") := by
  constructor <;> decide

/-- C4 (amended): the strategy-1 completion path performs no artifact
validation at all: its result does not depend on the artifact bytes, and it
marks the job `completed` unconditionally once the automation layer returns
without error — a zero-byte or malformed artifact is still declared a
success. -/
theorem strategy1_success_unconditional (st : MemStorage) (id : Nat)
    (j : ConversionJob) (bytes bytes' : List Nat) (path : String) (now : Nat)
    (hj : lookupJob st id = some j) :
    finishStrategy1 st id bytes path now = finishStrategy1 st id bytes' path now
    ∧ ∃ u, lookupJob (finishStrategy1 st id bytes path now).1 id = some u
        ∧ u.status = ("completed") ∧ u.completedAt = some now
        ∧ (finishStrategy1 st id bytes path now).2 = path := by
  refine ⟨rfl, ?_⟩
  have h := lookup_update_self st id j ("completed") none none now hj
  exact ⟨_, h, rfl, by simp [applyTransition], rfl⟩

/-- Witness for the amended C4 theorem: concrete store, empty artifact. -/
theorem strategy1_success_unconditional_witness :
    finishStrategy1 (mkStore [mkJob 1 0 ("processing")]) 1 [] ("out.pdf") 9
        = finishStrategy1 (mkStore [mkJob 1 0 ("processing")]) 1 [37, 80, 68, 70] ("out.pdf") 9
    ∧ ∃ u, lookupJob
          (finishStrategy1 (mkStore [mkJob 1 0 ("processing")]) 1 [] ("out.pdf") 9).1
          1 = some u
        ∧ u.status = ("completed") ∧ u.completedAt = some 9
        ∧ (finishStrategy1 (mkStore [mkJob 1 0 ("processing")]) 1 [] ("out.pdf") 9).2
            = ("out.pdf") :=
  strategy1_success_unconditional (mkStore [mkJob 1 0 ("processing")]) 1
    (mkJob 1 0 ("processing")) [] [37, 80, 68, 70] ("out.pdf") 9 (by decide)

/-! ## C10: field preservation under transitions -/

/-- C10: `updateConversionJobStatus` never clears a previously set artifact
path or error: a missing or empty-string argument preserves the stored value,
a non-empty argument replaces it, and every field other than `status`,
`pdfPath`, `error` and `completedAt` is left untouched by the transition. -/
theorem transition_preserves_fields (st : MemStorage) (id : Nat)
    (j : ConversionJob) (status : String) (p e : Option String) (now : Nat)
    (hj : lookupJob st id = some j) :
    ∃ u, (updateConversionJobStatus st id status p e now).2 = some u
      ∧ ((p = none ∨ p = some ("")) → u.pdfPath = j.pdfPath)
      ∧ ((e = none ∨ e = some ("")) → u.error = j.error)
      ∧ (u.pdfPath = j.pdfPath ∨ ∃ s, s ≠ ("") ∧ u.pdfPath = some s)
      ∧ (u.error = j.error ∨ ∃ s, s ≠ ("") ∧ u.error = some s)
      ∧ u.id = j.id ∧ u.filename = j.filename ∧ u.originalHtml = j.originalHtml
      ∧ u.config = j.config ∧ u.createdAt = j.createdAt := by
  have hsnd : (updateConversionJobStatus st id status p e now).2
      = some (applyTransition j status p e now) := by
    unfold updateConversionJobStatus
    rw [show lookupJob st id = some j from hj]
  refine ⟨_, hsnd, ?_, ?_, ?_, ?_, rfl, rfl, rfl, rfl, rfl⟩
  · rintro (h | h) <;> simp [applyTransition, falsyOr, h]
  · rintro (h | h) <;> simp [applyTransition, falsyOr, h]
  · rcases p with _ | s
    · exact Or.inl rfl
    · by_cases hs : s = ("")
      · exact Or.inl (by simp [applyTransition, falsyOr, hs])
      · exact Or.inr ⟨s, hs, by simp [applyTransition, falsyOr, hs]⟩
  · rcases e with _ | s
    · exact Or.inl rfl
    · by_cases hs : s = ("")
      · exact Or.inl (by simp [applyTransition, falsyOr, hs])
      · exact Or.inr ⟨s, hs, by simp [applyTransition, falsyOr, hs]⟩

/-- Witness for the C10 theorem at a concrete store and arguments. -/
theorem transition_preserves_fields_witness :
    ∃ u, (updateConversionJobStatus (mkStore [mkJob 1 0 ("processing")]) 1
            ("failed") (some ("")) none 7).2 = some u
      ∧ ((some ("") = none ∨ some ("") = some ("")) →
          u.pdfPath = (mkJob 1 0 ("processing")).pdfPath)
      ∧ ((none = (none : Option String) ∨ (none : Option String) = some ("")) →
          u.error = (mkJob 1 0 ("processing")).error)
      ∧ (u.pdfPath = (mkJob 1 0 ("processing")).pdfPath
          ∨ ∃ s, s ≠ ("") ∧ u.pdfPath = some s)
      ∧ (u.error = (mkJob 1 0 ("processing")).error
          ∨ ∃ s, s ≠ ("") ∧ u.error = some s)
      ∧ u.id = (mkJob 1 0 ("processing")).id
      ∧ u.filename = (mkJob 1 0 ("processing")).filename
      ∧ u.originalHtml = (mkJob 1 0 ("processing")).originalHtml
      ∧ u.config = (mkJob 1 0 ("processing")).config
      ∧ u.createdAt = (mkJob 1 0 ("processing")).createdAt :=
  transition_preserves_fields (mkStore [mkJob 1 0 ("processing")]) 1
    (mkJob 1 0 ("processing")) ("failed") (some ("")) none 7 (by decide)

/-! ## C3: the fallback chain -/

theorem launch_skips_errors {β : Type} (pre : List (Except String β)) (b : β)
    (rest : List (Except String β)) (hpre : ∀ a ∈ pre, isErr a = true) :
    launchWithFallback (pre ++ Except.ok b :: rest) = Except.ok b := by
  induction pre with
  | nil => rfl
  | cons a t ih =>
    cases a with
    | ok x =>
      have hx := hpre (Except.ok x) (by simp)
      simp [isErr] at hx
    | error m =>
      rw [List.cons_append]
      exact ih (fun a ha => hpre a (by simp [ha]))

theorem launch_all_errors {β : Type} (attempts : List (Except String β))
    (hall : ∀ a ∈ attempts, isErr a = true) :
    launchWithFallback attempts = Except.error allLaunchFailedMessage := by
  induction attempts with
  | nil => rfl
  | cons a t ih =>
    cases a with
    | ok x =>
      have hx := hall (Except.ok x) (by simp)
      simp [isErr] at hx
    | error m => exact ih (fun a ha => hall a (by simp [ha]))

/-- C3 (counterexample): with two failing attempts whose error details are
`spawn ENOENT` and `chromium missing`, the loop raises only the constant
message, which contains neither detail; likewise `generateSimplePdf` rethrows
a constant message that drops the underlying error. -/
theorem fallback_error_not_aggregated :
    launchWithFallback (β := Nat)
        [Except.error ("spawn ENOENT"), Except.error ("chromium missing")]
      = Except.error allLaunchFailedMessage
    ∧ containsSub (("ENOENT").data) ((allLaunchFailedMessage).data) = false
    ∧ containsSub (("chromium").data) ((allLaunchFailedMessage).data) = false
    ∧ generateSimplePdfErrorPath (Except.error ("EACCES: permission denied"))
        = Except.error ("All PDF generation methods failed")
    ∧ containsSub (("EACCES").data) ((("All PDF generation methods failed")).data)
        = false := by
  refine ⟨rfl, by decide, by decide, rfl, by decide⟩

/-- C3 (amended): the fallback loop does return the first succeeding attempt,
short-circuiting the remaining ones; but when every attempt fails it raises a
single error with a fixed message that carries none of the individual
attempts' error details (those are only logged). -/
theorem fallback_first_success_fixed_error {β : Type}
    (pre rest attempts : List (Except String β)) (b : β)
    (hpre : ∀ a ∈ pre, isErr a = true) (hall : ∀ a ∈ attempts, isErr a = true) :
    launchWithFallback (pre ++ Except.ok b :: rest) = Except.ok b
    ∧ launchWithFallback attempts = Except.error allLaunchFailedMessage :=
  ⟨launch_skips_errors pre b rest hpre, launch_all_errors attempts hall⟩

/-- Witness for the amended C3 theorem on concrete attempt lists. -/
theorem fallback_first_success_fixed_error_witness :
    launchWithFallback
        ([Except.error ("spawn ENOENT")] ++ Except.ok (0 : Nat) :: [Except.error ("late")])
      = Except.ok 0
    ∧ launchWithFallback (β := Nat)
        [Except.error ("spawn ENOENT"), Except.error ("chromium missing")]
      = Except.error allLaunchFailedMessage :=
  fallback_first_success_fixed_error [Except.error ("spawn ENOENT")]
    [Except.error ("late")]
    [Except.error ("spawn ENOENT"), Except.error ("chromium missing")] 0
    (by decide) (by decide)

/-! ## C6: font-scale monotonicity -/

/-- C6: the column-count classification is monotone: a table with strictly
more columns never gets a larger font size than a table with fewer columns
(`small-table` 11px, `medium-table` 9px, `large-table`/default 7px). -/
theorem tableFontSize_antitone (c1 c2 : Nat) (h : c1 < c2) :
    tableFontSizePx c2 ≤ tableFontSizePx c1 := by
  unfold tableFontSizePx tableSizeClass classFontSizePx
  by_cases h1 : c1 ≤ 7 <;> by_cases h2 : c2 ≤ 7 <;>
    by_cases h3 : c1 ≤ 14 <;> by_cases h4 : c2 ≤ 14 <;>
    simp [h1, h2, h3, h4] <;> omega

/-- Witness for C6 at concrete column counts 3 < 20. -/
theorem tableFontSize_antitone_witness :
    3 < 20 ∧ tableFontSizePx 20 ≤ tableFontSizePx 3 :=
  ⟨by decide, tableFontSize_antitone 3 20 (by decide)⟩

/-! ## C8: large-table column widths -/

theorem tableRowClaimPct_succ (w : Nat → ℚ) (n : Nat) :
    tableRowClaimPct w (n + 1) = tableRowClaimPct w n + w n := by
  simp [tableRowClaimPct, List.range_succ]

/-- C8 (counterexample): a 21-column table is in the `large-table` ("many
columns") class, yet the second CSS variant's per-column widths (first column
15%, others 85%/19) sum to 1985/19 ≈ 104.5% of the page width; the first
variant (first column 100%/6, others 5%) already exceeds the page at 18
columns.  The claim's "for any column count in that class" fails. -/
theorem many_columns_width_exceeds_page :
    tableSizeClass 21 = ("large-table")
    ∧ 100 < tableRowClaimPct largeColWidthPct 21
    ∧ tableSizeClass 18 = ("large-table")
    ∧ 100 < tableRowClaimPct largeColWidthPctV1 18 := by
  refine ⟨rfl, ?_, rfl, ?_⟩ <;>
    norm_num [tableRowClaimPct, largeColWidthPct, largeColWidthPctV1,
      List.range_succ]

theorem tableRowClaimPct_largeColWidthPct (n : Nat) :
    tableRowClaimPct largeColWidthPct (n + 1) = 15 + n * (85 / 19 : ℚ) := by
  induction n with
  | zero => norm_num [tableRowClaimPct, largeColWidthPct, List.range_succ]
  | succ k ih =>
    rw [tableRowClaimPct_succ, ih]
    have hk : largeColWidthPct (k + 1) = 85 / 19 := by simp [largeColWidthPct]
    rw [hk]
    push_cast
    ring

theorem tableRowClaimPct_largeColWidthPctV1 (n : Nat) :
    tableRowClaimPct largeColWidthPctV1 (n + 1) = 100 / 6 + n * (5 : ℚ) := by
  induction n with
  | zero => norm_num [tableRowClaimPct, largeColWidthPctV1, List.range_succ]
  | succ k ih =>
    rw [tableRowClaimPct_succ, ih]
    have hk : largeColWidthPctV1 (k + 1) = 5 := by
      simp [largeColWidthPctV1]
      norm_num
    rw [hk]
    push_cast
    ring

/-- C8 (amended): for every table in the `large-table` ("many columns")
class, both CSS variants give every non-first column one equal fractional
width with a strictly wider first column; but the aggregate width claim
stays within 100% of the page only up to 20 columns in the second variant
(first column 15%, others 85%/19) and only up to 17 columns in the first
variant (first column 100%/6, others 100%/20) — for every larger column
count in the class the aggregate strictly exceeds 100%. -/
theorem many_columns_width_within_page (n : Nat)
    (hclass : tableSizeClass n = ("large-table")) :
    (n ≤ 20 → tableRowClaimPct largeColWidthPct n ≤ 100)
    ∧ (20 < n → 100 < tableRowClaimPct largeColWidthPct n)
    ∧ (n ≤ 17 → tableRowClaimPct largeColWidthPctV1 n ≤ 100)
    ∧ (17 < n → 100 < tableRowClaimPct largeColWidthPctV1 n)
    ∧ largeColWidthPct 1 < largeColWidthPct 0
    ∧ (∀ i, 1 ≤ i → largeColWidthPct i = largeColWidthPct 1)
    ∧ largeColWidthPctV1 1 < largeColWidthPctV1 0
    ∧ (∀ i, 1 ≤ i → largeColWidthPctV1 i = largeColWidthPctV1 1) := by
  have h15 : 15 ≤ n := by
    by_cases h7 : n ≤ 7
    · rw [tableSizeClass, if_pos h7] at hclass
      exact absurd hclass (by decide)
    · by_cases h14 : n ≤ 14
      · rw [tableSizeClass, if_neg h7, if_pos h14] at hclass
        exact absurd hclass (by decide)
      · omega
  obtain ⟨m, rfl⟩ : ∃ m, n = m + 1 := ⟨n - 1, by omega⟩
  refine ⟨?_, ?_, ?_, ?_, by norm_num [largeColWidthPct], ?_, by norm_num [largeColWidthPctV1], ?_⟩
  · intro h20
    rw [tableRowClaimPct_largeColWidthPct]
    have hm : (m : ℚ) ≤ 19 := by exact_mod_cast (by omega : m ≤ 19)
    have hmul := mul_le_mul_of_nonneg_right hm (by norm_num : (0 : ℚ) ≤ 85 / 19)
    linarith
  · intro h20
    rw [tableRowClaimPct_largeColWidthPct]
    have hm : (20 : ℚ) ≤ m := by exact_mod_cast (by omega : 20 ≤ m)
    have hmul := mul_le_mul_of_nonneg_right hm (by norm_num : (0 : ℚ) ≤ 85 / 19)
    linarith
  · intro h17
    rw [tableRowClaimPct_largeColWidthPctV1]
    have hm : (m : ℚ) ≤ 16 := by exact_mod_cast (by omega : m ≤ 16)
    linarith
  · intro h17
    rw [tableRowClaimPct_largeColWidthPctV1]
    have hm : (17 : ℚ) ≤ m := by exact_mod_cast (by omega : 17 ≤ m)
    linarith
  · intro i hi
    have hi' : i ≠ 0 := by omega
    simp [largeColWidthPct, hi']
  · intro i hi
    have hi' : i ≠ 0 := by omega
    simp [largeColWidthPctV1, hi']

/-- Witness for the amended C8 theorem at a 21-column large table (both
variants exceed the page there; the within-page implications are exercised
by their hypotheses at this width). -/
theorem many_columns_width_within_page_witness :
    tableSizeClass 21 = ("large-table")
    ∧ ((21 ≤ 20 → tableRowClaimPct largeColWidthPct 21 ≤ 100)
        ∧ (20 < 21 → 100 < tableRowClaimPct largeColWidthPct 21)
        ∧ (21 ≤ 17 → tableRowClaimPct largeColWidthPctV1 21 ≤ 100)
        ∧ (17 < 21 → 100 < tableRowClaimPct largeColWidthPctV1 21)
        ∧ largeColWidthPct 1 < largeColWidthPct 0
        ∧ (∀ i, 1 ≤ i → largeColWidthPct i = largeColWidthPct 1)
        ∧ largeColWidthPctV1 1 < largeColWidthPctV1 0
        ∧ (∀ i, 1 ≤ i → largeColWidthPctV1 i = largeColWidthPctV1 1)) :=
  ⟨by decide, many_columns_width_within_page 21 (by decide)⟩

/-! ## C5: the startup sweep -/

theorem insertByCreatedAtDesc_perm (x : ConversionJob) (l : List ConversionJob) :
    List.Perm (insertByCreatedAtDesc x l) (x :: l) := by
  induction l with
  | nil => exact List.Perm.refl _
  | cons y ys ih =>
    unfold insertByCreatedAtDesc
    by_cases h : y.createdAt ≤ x.createdAt
    · rw [if_pos h]
    · rw [if_neg h]
      exact (ih.cons y).trans (List.Perm.swap x y ys)

theorem sortByCreatedAtDesc_perm (l : List ConversionJob) :
    List.Perm (sortByCreatedAtDesc l) l := by
  induction l with
  | nil => exact List.Perm.refl _
  | cons x xs ih => exact (insertByCreatedAtDesc_perm x _).trans (ih.cons x)

theorem mem_of_mem_processingRecent {st : MemStorage} {j : ConversionJob}
    (h : j ∈ processingRecent st) : j ∈ st.jobs := by
  have h1 := List.mem_of_mem_filter h
  have h2 := List.mem_of_mem_take h1
  exact (sortByCreatedAtDesc_perm st.jobs).mem_iff.mp h2

theorem nodup_processingRecent_ids (st : MemStorage)
    (h : (st.jobs.map (fun j => j.id)).Nodup) :
    ((processingRecent st).map (fun j => j.id)).Nodup := by
  have hsub : (processingRecent st).Sublist (sortByCreatedAtDesc st.jobs) :=
    (List.filter_sublist _).trans (List.take_sublist _ _)
  have hperm := (sortByCreatedAtDesc_perm st.jobs).map (fun j => j.id)
  have hnd : ((sortByCreatedAtDesc st.jobs).map (fun j => j.id)).Nodup :=
    hperm.nodup_iff.mpr h
  exact List.Nodup.sublist (hsub.map _) hnd

theorem find_of_mem_nodup (l : List ConversionJob) (j : ConversionJob)
    (hnd : (l.map (fun x => x.id)).Nodup) (hm : j ∈ l) :
    l.find? (fun x => x.id == j.id) = some j := by
  induction l with
  | nil => simp at hm
  | cons a t ih =>
    have hcons : (∀ x ∈ t, x.id ≠ a.id) ∧ (t.map (fun x => x.id)).Nodup := by
      simpa using hnd
    rcases List.mem_cons.mp hm with h | h
    · subst h
      simp [List.find?]
    · have hne : a.id ≠ j.id := fun hh => hcons.1 j h hh.symm
      have haj : (a.id == j.id) = false := by simp [hne]
      simp only [List.find?, haj]
      exact ih hcons.2 h

theorem lookup_of_mem_nodup (st : MemStorage) (j : ConversionJob)
    (hnd : (st.jobs.map (fun x => x.id)).Nodup) (hm : j ∈ st.jobs) :
    lookupJob st j.id = some j :=
  find_of_mem_nodup st.jobs j hnd hm

theorem sweep_fold_lookup (now : Nat) (L : List ConversionJob) (st : MemStorage)
    (hnd : (L.map (fun j => j.id)).Nodup)
    (hin : ∀ j ∈ L, lookupJob st j.id = some j) :
    (∀ j ∈ L,
      lookupJob
        (L.foldl (fun s j =>
          (updateConversionJobStatus s j.id ("failed") (some interruptedMessage) none now).1) st)
        j.id
        = some (applyTransition j ("failed") (some interruptedMessage) none now))
    ∧ (∀ k, k ∉ L.map (fun j => j.id) →
      lookupJob
        (L.foldl (fun s j =>
          (updateConversionJobStatus s j.id ("failed") (some interruptedMessage) none now).1) st)
        k = lookupJob st k) := by
  induction L generalizing st with
  | nil => exact ⟨by simp, fun k _ => rfl⟩
  | cons a t ih =>
    have hcons : (∀ x ∈ t, x.id ≠ a.id) ∧ (t.map (fun x => x.id)).Nodup := by
      simpa using hnd
    have hlka : lookupJob st a.id = some a := hin a (by simp)
    have hup := lookup_update_self st a.id a ("failed") (some interruptedMessage) none now hlka
    have hint : ∀ j ∈ t,
        lookupJob (updateConversionJobStatus st a.id ("failed") (some interruptedMessage) none now).1 j.id
          = some j := by
      intro j hj
      rw [lookup_update_ne st a.id j.id _ _ _ _ (hcons.1 j hj)]
      exact hin j (by simp [hj])
    obtain ⟨ih1, ih2⟩ := ih _ hcons.2 hint
    rw [List.foldl_cons]
    constructor
    · intro j hj
      rcases List.mem_cons.mp hj with h | h
      · subst h
        have hnotin : j.id ∉ t.map (fun x => x.id) := by
          intro hh
          rcases List.mem_map.mp hh with ⟨x, hx, hxid⟩
          exact hcons.1 x hx hxid
        rw [ih2 j.id hnotin]
        exact hup
      · exact ih1 j h
    · intro k hk
      have hka : k ≠ a.id := by
        intro hh
        exact hk (by simp [hh])
      have hkt : k ∉ t.map (fun j => j.id) := by
        intro hh
        exact hk (by simp [hh])
      rw [ih2 k hkt]
      exact lookup_update_ne st a.id k _ _ _ _ hka

/-- C5 (counterexample): a store whose only job is `pending` — a non-terminal
status the claim says the sweep must force to `failed` — is left completely
untouched by `cleanupHangingJobs`, which only selects `processing` jobs. -/
theorem pending_job_not_swept :
    (lookupJob (cleanupHangingJobs (mkStore [mkJob 1 0 ("pending")]) 9) 1).map
        (fun j => j.status)
      = some ("pending") := by decide

/-- C5 (amended): the startup sweep force-fails exactly the jobs with status
`processing` among the 10 most recently created jobs: each such job ends
`failed` with the interrupted message stored in `pdfPath` (the `error` field
is left unchanged, as the message is passed in the `pdfPath` argument slot)
and `completedAt` set; every other job — `pending` jobs and jobs outside the
10 most recent included — keeps its store entry unchanged. -/
theorem sweep_exactly_processing_recent (st : MemStorage) (now : Nat)
    (hnd : (st.jobs.map (fun j => j.id)).Nodup) :
    (∀ j ∈ processingRecent st,
      lookupJob (cleanupHangingJobs st now) j.id
        = some { j with status := ("failed"), pdfPath := some interruptedMessage, completedAt := some now })
    ∧ (∀ k, k ∉ (processingRecent st).map (fun j => j.id) →
      lookupJob (cleanupHangingJobs st now) k = lookupJob st k) := by
  have hndp := nodup_processingRecent_ids st hnd
  have hin : ∀ j ∈ processingRecent st, lookupJob st j.id = some j := fun j hj =>
    lookup_of_mem_nodup st j hnd (mem_of_mem_processingRecent hj)
  obtain ⟨h1, h2⟩ := sweep_fold_lookup now (processingRecent st) st hndp hin
  have hmsg : interruptedMessage ≠ ("") := by decide
  refine ⟨fun j hj => ?_, h2⟩
  have hx := h1 j hj
  have hform : applyTransition j ("failed") (some interruptedMessage) none now
      = { j with status := ("failed"), pdfPath := some interruptedMessage, completedAt := some now } := by
    simp [applyTransition, falsyOr, hmsg]
  rw [cleanupHangingJobs]
  rw [hform] at hx
  exact hx

/-- Witness for the amended C5 theorem: a two-job store with one `processing`
and one (more recent) `pending` job — the processing job is force-failed with
the message in `pdfPath`, the pending job's entry is untouched. -/
theorem sweep_exactly_processing_recent_witness :
    lookupJob (cleanupHangingJobs (mkStore [mkJob 1 1 ("processing"), mkJob 2 2 ("pending")]) 9) 1
      = some { mkJob 1 1 ("processing") with status := ("failed"), pdfPath := some interruptedMessage, completedAt := some 9 }
    ∧ lookupJob (cleanupHangingJobs (mkStore [mkJob 1 1 ("processing"), mkJob 2 2 ("pending")]) 9) 2
      = lookupJob (mkStore [mkJob 1 1 ("processing"), mkJob 2 2 ("pending")]) 2 :=
  ⟨(sweep_exactly_processing_recent (mkStore [mkJob 1 1 ("processing"), mkJob 2 2 ("pending")]) 9
      (by decide)).1 (mkJob 1 1 ("processing")) (by decide),
    (sweep_exactly_processing_recent (mkStore [mkJob 1 1 ("processing"), mkJob 2 2 ("pending")]) 9
      (by decide)).2 2 (by decide)⟩

/-! ## Sanitizer lemmas -/

theorem matchDocumentWrite_head_none (c : Char) (rest : List Char) (h : c ≠ 'd') :
    matchDocumentWrite (c :: rest) = none := by
  simp [matchDocumentWrite, stripLit, h]

theorem matchDocumentOpen_head_none (c : Char) (rest : List Char) (h : c ≠ 'd') :
    matchDocumentOpen (c :: rest) = none := by
  simp [matchDocumentOpen, stripLit, h]

theorem matchWindowLocation_head_none (c : Char) (rest : List Char) (h : c ≠ 'w') :
    matchWindowLocation (c :: rest) = none := by
  simp [matchWindowLocation, stripLit, h]

theorem matchPositionFixed_head_none (c : Char) (rest : List Char)
    (h : lowerChar c ≠ 'p') : matchPositionFixed (c :: rest) = none := by
  have hp : lowerChar ('p') = 'p' := by decide
  simp [matchPositionFixed, stripLitCI, hp, h]

theorem matchPositionSticky_head_none (c : Char) (rest : List Char)
    (h : lowerChar c ≠ 'p') : matchPositionSticky (c :: rest) = none := by
  have hp : lowerChar ('p') = 'p' := by decide
  simp [matchPositionSticky, stripLitCI, hp, h]

theorem matchMedia_head_none (c : Char) (rest : List Char) (h : c ≠ '@') :
    matchMedia (c :: rest) = none := by
  simp [matchMedia, stripLit, h]

theorem matchAnimationDecl_head_none (c : Char) (rest : List Char)
    (h : lowerChar c ≠ 'a') : matchAnimationDecl (c :: rest) = none := by
  have ha : lowerChar ('a') = 'a' := by decide
  simp [matchAnimationDecl, stripLitCI, ha, h]

theorem replaceGo_id_of_head_none (m : List Char → Option Nat) (repl : List Char)
    (s : List Char) (h : ∀ c ∈ s, ∀ rest, m (c :: rest) = none) :
    replaceGo m repl 0 s = s := by
  induction s with
  | nil => rfl
  | cons c cs ih =>
    have h0 := h c (by simp) cs
    simp only [replaceGo, h0]
    rw [ih (fun c' hc' rest => h c' (by simp [hc']) rest)]

theorem mem_repBlock {c : Char} {n : Nat} {b : List Char}
    (h : c ∈ repBlock n b) : c ∈ b := by
  induction n with
  | zero => simp [repBlock] at h
  | succ k ih =>
    rcases List.mem_append.mp h with h' | h'
    · exact h'
    · exact ih h'

theorem pass_id_rep (m : List Char → Option Nat) (repl : List Char)
    (b : List Char) (hb : ∀ c ∈ b, ∀ rest, m (c :: rest) = none) (n : Nat) :
    replaceAllPat m repl (repBlock n b) = repBlock n b :=
  replaceGo_id_of_head_none m repl _ (fun c hc rest => hb c (mem_repBlock hc) rest)

theorem animBlock_chars :
    ∀ c ∈ animBlock, c ≠ 'd' ∧ c ≠ 'w' ∧ lowerChar c ≠ 'p' ∧ c ≠ '@' := by decide

theorem smallBlock_chars :
    ∀ c ∈ smallBlock, c ≠ 'd' ∧ c ≠ 'w' ∧ lowerChar c ≠ 'p' ∧ c ≠ '@' := by decide

theorem pass7_animBlock_step (t : List Char) :
    replaceAllPat matchAnimationDecl [] (animBlock ++ t)
      = smallBlock ++ replaceAllPat matchAnimationDecl [] t := rfl

theorem pass7_smallBlock_step (t : List Char) :
    replaceAllPat matchAnimationDecl [] (smallBlock ++ t)
      = replaceAllPat matchAnimationDecl [] t := rfl

theorem pass8_smallBlock_step (t : List Char) :
    replaceAllPat matchWSRun ([' ']) (smallBlock ++ t)
      = smallBlock ++ replaceAllPat matchWSRun ([' ']) t := rfl

theorem replaceAll_rep_of_step (m : List Char → Option Nat) (repl b ob : List Char)
    (hstep : ∀ t, replaceAllPat m repl (b ++ t) = ob ++ replaceAllPat m repl t) :
    ∀ n, replaceAllPat m repl (repBlock n b) = repBlock n ob := by
  intro n
  induction n with
  | zero => rfl
  | succ k ih =>
    show replaceAllPat m repl (b ++ repBlock k b) = ob ++ repBlock k ob
    rw [hstep, ih]

theorem repBlock_nil (n : Nat) : repBlock n ([] : List Char) = [] := by
  induction n with
  | zero => rfl
  | succ k ih => simpa [repBlock] using ih

theorem repBlock_succ_right (n : Nat) (b : List Char) :
    repBlock (n + 1) b = repBlock n b ++ b := by
  induction n with
  | zero => simp [repBlock]
  | succ k ih =>
    show b ++ repBlock (k + 1) b = (b ++ repBlock k b) ++ b
    rw [ih, List.append_assoc]

theorem length_repBlock (n : Nat) (b : List Char) :
    (repBlock n b).length = n * b.length := by
  induction n with
  | zero => simp [repBlock]
  | succ k ih =>
    show (b ++ repBlock k b).length = (k + 1) * b.length
    rw [List.length_append, ih, Nat.succ_mul, Nat.add_comm]

theorem trim_rep_smallBlock (n : Nat) :
    trimChars (repBlock (n + 1) smallBlock) = repBlock (n + 1) smallBlock := by
  have h1 : (repBlock (n + 1) smallBlock).dropWhile isJsWS
      = repBlock (n + 1) smallBlock := rfl
  have h2 : (repBlock (n + 1) smallBlock).reverse.dropWhile isJsWS
      = (repBlock (n + 1) smallBlock).reverse := by
    rw [repBlock_succ_right, List.reverse_append]
    rfl
  unfold trimChars
  rw [h1, h2, List.reverse_reverse]

theorem sanitize_rep_animBlock (n : Nat) :
    sanitizeChars (repBlock (n + 1) animBlock) = repBlock (n + 1) smallBlock := by
  unfold sanitizeChars
  rw [pass_id_rep matchDocumentWrite [] animBlock
      (fun c hc rest => matchDocumentWrite_head_none c rest (animBlock_chars c hc).1) (n + 1),
    pass_id_rep matchDocumentOpen [] animBlock
      (fun c hc rest => matchDocumentOpen_head_none c rest (animBlock_chars c hc).1) (n + 1),
    pass_id_rep matchWindowLocation winLocRepl animBlock
      (fun c hc rest => matchWindowLocation_head_none c rest (animBlock_chars c hc).2.1) (n + 1),
    pass_id_rep matchPositionFixed staticRepl animBlock
      (fun c hc rest => matchPositionFixed_head_none c rest (animBlock_chars c hc).2.2.1) (n + 1),
    pass_id_rep matchPositionSticky staticRepl animBlock
      (fun c hc rest => matchPositionSticky_head_none c rest (animBlock_chars c hc).2.2.1) (n + 1),
    pass_id_rep matchMedia [] animBlock
      (fun c hc rest => matchMedia_head_none c rest (animBlock_chars c hc).2.2.2) (n + 1),
    replaceAll_rep_of_step matchAnimationDecl [] animBlock smallBlock
      pass7_animBlock_step (n + 1),
    replaceAll_rep_of_step matchWSRun ([' ']) smallBlock smallBlock
      pass8_smallBlock_step (n + 1),
    trim_rep_smallBlock n]

theorem sanitize_rep_smallBlock (n : Nat) :
    sanitizeChars (repBlock n smallBlock) = [] := by
  unfold sanitizeChars
  rw [pass_id_rep matchDocumentWrite [] smallBlock
      (fun c hc rest => matchDocumentWrite_head_none c rest (smallBlock_chars c hc).1) n,
    pass_id_rep matchDocumentOpen [] smallBlock
      (fun c hc rest => matchDocumentOpen_head_none c rest (smallBlock_chars c hc).1) n,
    pass_id_rep matchWindowLocation winLocRepl smallBlock
      (fun c hc rest => matchWindowLocation_head_none c rest (smallBlock_chars c hc).2.1) n,
    pass_id_rep matchPositionFixed staticRepl smallBlock
      (fun c hc rest => matchPositionFixed_head_none c rest (smallBlock_chars c hc).2.2.1) n,
    pass_id_rep matchPositionSticky staticRepl smallBlock
      (fun c hc rest => matchPositionSticky_head_none c rest (smallBlock_chars c hc).2.2.1) n,
    pass_id_rep matchMedia [] smallBlock
      (fun c hc rest => matchMedia_head_none c rest (smallBlock_chars c hc).2.2.2) n,
    replaceAll_rep_of_step matchAnimationDecl [] smallBlock []
      (fun t => pass7_smallBlock_step t) n,
    repBlock_nil]
  rfl

/-! ## C7: size idempotence of the sanitizer -/

/-- C7 (code evaluated at the failing input): `largeDoc` — 24000 copies of a
26-character block, 624000 characters, above the size threshold — sanitizes
to 312000 characters, but sanitizing the result again yields the empty
string: each `animation:` removal concatenates the surrounding text into a
fresh `animation:` declaration that the next run removes, so the transform is
not size-idempotent (the second application shrinks the output by 312000
characters, far outside any small tolerance). -/
theorem sanitize_not_size_idempotent :
    sizeOptimizationThreshold < (String.mk largeDoc).length
    ∧ (sanitizeHtml (String.mk largeDoc)).length = 312000
    ∧ (sanitizeHtml (sanitizeHtml (String.mk largeDoc))).length = 0
    ∧ (sanitizeHtml (sanitizeHtml (String.mk largeDoc))).length
        ≠ (sanitizeHtml (String.mk largeDoc)).length := by
  have hmkLen : ∀ l : List Char, (String.mk l).length = l.length := fun l => rfl
  have h1 : sanitizeChars largeDoc = repBlock 24000 smallBlock :=
    sanitize_rep_animBlock 23999
  have hs1 : sanitizeHtml (String.mk largeDoc) = String.mk (repBlock 24000 smallBlock) := by
    show String.mk (sanitizeChars largeDoc) = _
    rw [h1]
  have hs2 : sanitizeHtml (sanitizeHtml (String.mk largeDoc)) = String.mk [] := by
    rw [hs1]
    show String.mk (sanitizeChars (repBlock 24000 smallBlock)) = _
    rw [sanitize_rep_smallBlock 24000]
  have hL1 : (sanitizeHtml (String.mk largeDoc)).length = 312000 := by
    rw [hs1, hmkLen, length_repBlock]
    decide
  have hL2 : (sanitizeHtml (sanitizeHtml (String.mk largeDoc))).length = 0 := by
    rw [hs2, hmkLen]
    rfl
  refine ⟨?_, hL1, hL2, ?_⟩
  · rw [hmkLen]
    show sizeOptimizationThreshold < (repBlock 24000 animBlock).length
    rw [length_repBlock]
    decide
  · rw [hL1, hL2]
    norm_num

/-! ## C9: residual banned constructs in sanitizer output -/

/-- C9 (code evaluated at the failing input): the `animation:` removal pass
runs after the positioning passes, so on the input
`posianimation: x;tion:fixed` it deletes `animation: x;` and concatenates the
remaining text into `position:fixed`, which survives to the output; likewise
the `@media` removal pass runs after the `document.write` pass, so
`docu@media x{y}ment.write(1)` sanitizes to a live `document.write(1)` call.
Both outputs violate the claimed guarantees. -/
theorem sanitize_output_contains_banned_constructs :
    sanitizeHtml ("posianimation: x;tion:fixed") = ("position:fixed")
    ∧ hasFixedDecl (sanitizeHtml ("posianimation: x;tion:fixed")) = true
    ∧ sanitizeHtml ("docu@media x\x7by\x7dment.write(1)") = ("document.write(1)")
    ∧ hasDocumentWriteCall (sanitizeHtml ("docu@media x\x7by\x7dment.write(1)")) = true := by
  refine ⟨by decide, by decide, by decide, by decide⟩
